import Mathlib

/-!
Verification of api/types/client.go: hijacked connections, version responses,
image options.

A shallow embedding of the three pieces of `api/types/client.go` that carry
behaviour or a type-level relation:

* `HijackedResponse` with its methods `Close` and `CloseWrite`,
* `VersionResponse` with `ServerOK`,
* `ImagePullOptions` and the type `ImagePushOptions` defined from it.

Modelling conventions.

* A Go `error` is `Option ε`: `none` is `nil`, `some e` is the error value `e`.
  The error type `ε` is arbitrary.
* A value of interface type `net.Conn` is `Option (net.Conn σ ε)`: `none` is the
  nil interface, `some c` carries the method table `c` of the dynamic type.  The
  mutable object behind the interface value lives outside the wrapper; its
  state has type `σ` and is threaded through every method call.  Only the
  methods this file invokes are part of the table: `Close`, and `CloseWrite`
  when the dynamic type has it.  Methods are total: a method that never returns
  or that panics by itself is outside the model.
* A method with a pointer receiver returns a `Post`: the values handed back to
  the caller, the receiver after the call and the connection state after the
  call.
-/

namespace Types

/-! ## Data model -/

/-- Runtime panics the embedded code can raise. -/
inductive GoPanic where
  | nilDereference
  deriving DecidableEq, Repr

/-- The interface `CloseWriter` (client.go, lines 100-104): one method,
`CloseWrite() error`, acting on the state of the object behind the interface. -/
structure CloseWriter (σ ε : Type) where
  CloseWrite : σ → Option ε × σ

end Types

namespace net

/-- The dynamic type behind a non-nil `net.Conn` interface value, restricted to
what client.go uses: the method `Close() error`, and the method set's answer to
the type assertion `.(CloseWriter)`. -/
structure Conn (σ ε : Type) where
  Close : σ → Option ε × σ
  asCloseWriter : Option (Types.CloseWriter σ ε)

end net

namespace Types

variable {σ ε ρ : Type}

/-- The struct `HijackedResponse` (client.go, lines 89-93).  `Conn` is an
interface value and `Reader` a pointer, so both may be nil. -/
structure HijackedResponse (σ ε ρ : Type) where
  Conn : Option (net.Conn σ ε)
  Reader : Option ρ

/-- What a method call on a `*HijackedResponse` leaves behind: the values it
returns to its caller, the receiver and the state of the connection object. -/
structure Post (α σ ε ρ : Type) where
  ret : α
  self : HijackedResponse σ ε ρ
  conn : σ

/-- The comma-ok type assertion `h.Conn.(CloseWriter)`: it fails (ok = false)
on the nil interface and on a dynamic type without `CloseWrite`. -/
def assertCloseWriter : Option (net.Conn σ ε) → Option (CloseWriter σ ε)
  | none => none
  | some c => c.asCloseWriter

/-- The method `func (h *HijackedResponse) Close()` (client.go, lines 95-98):
`h.Conn.Close()` as an expression statement.  The method has no result, so
the `error` returned by the connection is dropped.  Calling a method on the nil
interface panics. -/
def HijackedResponse.Close (h : HijackedResponse σ ε ρ) (s : σ) :
    Except GoPanic (Post Unit σ ε ρ) :=
  match h.Conn with
  | none => .error GoPanic.nilDereference
  | some c =>
    let r := c.Close s
    .ok ⟨(), h, r.2⟩

/-- The method `func (h *HijackedResponse) CloseWrite() error` (client.go,
lines 106-112). -/
def HijackedResponse.CloseWrite (h : HijackedResponse σ ε ρ) (s : σ) :
    Post (Option ε) σ ε ρ :=
  match assertCloseWriter h.Conn with
  | some conn =>
    let r := conn.CloseWrite s
    ⟨r.1, h, r.2⟩
  | none => ⟨none, h, s⟩

/-- A caller that invokes `Close` on the same `HijackedResponse` `n` times in a
row, stopping at the first panic. -/
def closeTimes : Nat → HijackedResponse σ ε ρ → σ → Except GoPanic (Post Unit σ ε ρ)
  | 0, h, s => .ok ⟨(), h, s⟩
  | n + 1, h, s =>
    match h.Close s with
    | .error p => .error p
    | .ok p => closeTimes n p.self p.conn

/-- The struct `VersionResponse` (client.go, lines 223-227).  The type `Version`
is declared elsewhere in the package and is a parameter here; both fields are
pointers. -/
structure VersionResponse (Version : Type) where
  Client : Option Version
  Server : Option Version

/-- The method `func (v VersionResponse) ServerOK() bool` (client.go, lines
229-233): `v.Server != nil`. -/
def VersionResponse.ServerOK {Version : Type} (v : VersionResponse Version) : Bool :=
  match v.Server with
  | none => false
  | some _ => true

/-- The struct `ImagePullOptions` (client.go, lines 182-188). -/
structure ImagePullOptions where
  ImageID : String
  Tag : String
  RegistryAuth : String
  deriving DecidableEq, Repr

/-- The type `ImagePushOptions` (client.go, line 191), defined as
`type ImagePushOptions ImagePullOptions`: a distinct named type whose underlying
type is the struct type underlying `ImagePullOptions`. -/
structure ImagePushOptions where
  ImageID : String
  Tag : String
  RegistryAuth : String
  deriving DecidableEq, Repr

/-- The Go conversion `ImagePushOptions(p)`. -/
def ImagePullOptions.toPush (p : ImagePullOptions) : ImagePushOptions :=
  ⟨p.ImageID, p.Tag, p.RegistryAuth⟩

/-- The Go conversion `ImagePullOptions(p)`. -/
def ImagePushOptions.toPull (p : ImagePushOptions) : ImagePullOptions :=
  ⟨p.ImageID, p.Tag, p.RegistryAuth⟩

/-! ## Connections that record the calls made on them -/

/-- The two calls client.go can make on a connection. -/
inductive ConnCall where
  | Close
  | CloseWrite
  deriving DecidableEq, Repr

/-- A connection records the calls made on it, with `log` reading the record
out of its state, when every `Close` appends one `Close` entry and every
`CloseWrite` appends one `CloseWrite` entry. -/
def Records (c : net.Conn σ ε) (log : σ → List ConnCall) : Prop :=
  (∀ s, log (c.Close s).2 = log s ++ [ConnCall.Close]) ∧
  (∀ cw, c.asCloseWriter = some cw →
    ∀ s, log (cw.CloseWrite s).2 = log s ++ [ConnCall.CloseWrite])

/-- Wraps any connection into one that keeps a log of the calls made on it next
to the wrapped state; it has `CloseWrite` exactly when the wrapped one has. -/
def recording (c : net.Conn σ ε) : net.Conn (σ × List ConnCall) ε :=
  ⟨fun s => ((c.Close s.1).1, ((c.Close s.1).2, s.2 ++ [ConnCall.Close])),
   match c.asCloseWriter with
   | none => none
   | some cw =>
     some ⟨fun s => ((cw.CloseWrite s.1).1, ((cw.CloseWrite s.1).2, s.2 ++ [ConnCall.CloseWrite]))⟩⟩

/-! ## Sample connections -/

/-- States of the sample sockets. -/
inductive SockState where
  | opened
  | halfClosed
  | closed
  | reset
  deriving DecidableEq, Repr

/-- Closing a sample socket: an open or half-closed socket closes without
error, a socket already closed or reset by the peer reports an error; every
socket ends up closed. -/
def sockClose : SockState → Option String × SockState
  | SockState.opened => (none, SockState.closed)
  | SockState.halfClosed => (none, SockState.closed)
  | SockState.closed => (some "use of closed network connection", SockState.closed)
  | SockState.reset => (some "connection reset by peer", SockState.closed)

/-- Half-closing a sample socket: an open socket becomes half-closed, any other
socket reports an error and keeps its state. -/
def sockCloseWrite : SockState → Option String × SockState
  | SockState.opened => (none, SockState.halfClosed)
  | SockState.halfClosed => (some "shutdown: transport endpoint is not connected", SockState.halfClosed)
  | SockState.closed => (some "use of closed network connection", SockState.closed)
  | SockState.reset => (some "connection reset by peer", SockState.reset)

/-- A sample connection without `CloseWrite`. -/
def pipeConn : net.Conn SockState String :=
  ⟨sockClose, none⟩

/-- A sample connection with `CloseWrite`. -/
def tcpConn : net.Conn SockState String :=
  ⟨sockClose, some ⟨sockCloseWrite⟩⟩

/-- A wrapper over the sample connection without `CloseWrite`. -/
def pipeResponse : HijackedResponse SockState String Unit :=
  ⟨some pipeConn, some ()⟩

/-- A wrapper over the sample connection with `CloseWrite`. -/
def tcpResponse : HijackedResponse SockState String Unit :=
  ⟨some tcpConn, some ()⟩

/-- A wrapper over the recording version of the sample connection without
`CloseWrite`. -/
def recPipeResponse : HijackedResponse (SockState × List ConnCall) String Unit :=
  ⟨some (recording pipeConn), some ()⟩

/-- A wrapper over the recording version of the sample connection with
`CloseWrite`. -/
def recTcpResponse : HijackedResponse (SockState × List ConnCall) String Unit :=
  ⟨some (recording tcpConn), some ()⟩

/-- The half-close method of the recording version of the sample connection
with `CloseWrite`. -/
def recTcpCloseWriter : CloseWriter (SockState × List ConnCall) String :=
  ⟨fun s => ((sockCloseWrite s.1).1, ((sockCloseWrite s.1).2, s.2 ++ [ConnCall.CloseWrite]))⟩

/-! ## Helper lemmas -/

theorem recording_records (c : net.Conn σ ε) : Records (recording c) Prod.snd := by
  refine ⟨fun s => rfl, ?_⟩
  intro cw hcw s
  unfold recording at hcw
  cases hc : c.asCloseWriter with
  | none => simp [hc] at hcw
  | some cw0 =>
    simp [hc] at hcw
    subst hcw
    rfl

theorem close_of_conn (h : HijackedResponse σ ε ρ) (c : net.Conn σ ε) (s : σ)
    (hc : h.Conn = some c) : h.Close s = .ok ⟨(), h, (c.Close s).2⟩ := by
  simp [HijackedResponse.Close, hc]

theorem closeWrite_of_none (h : HijackedResponse σ ε ρ) (s : σ)
    (hc : assertCloseWriter h.Conn = none) : h.CloseWrite s = ⟨none, h, s⟩ := by
  simp [HijackedResponse.CloseWrite, hc]

theorem closeWrite_of_some (h : HijackedResponse σ ε ρ) (cw : CloseWriter σ ε) (s : σ)
    (hc : assertCloseWriter h.Conn = some cw) :
    h.CloseWrite s = ⟨(cw.CloseWrite s).1, h, (cw.CloseWrite s).2⟩ := by
  simp [HijackedResponse.CloseWrite, hc]

theorem closeTimes_of_conn (h : HijackedResponse σ ε ρ) (c : net.Conn σ ε)
    (hc : h.Conn = some c) (n : Nat) (s : σ) :
    closeTimes n h s = .ok ⟨(), h, (fun t => (c.Close t).2)^[n] s⟩ := by
  induction n generalizing s with
  | zero => rfl
  | succ k ih =>
    simp only [closeTimes, close_of_conn h c s hc, Function.iterate_succ, Function.comp_apply]
    exact ih _

theorem records_iterate (c : net.Conn σ ε) (log : σ → List ConnCall) (hr : Records c log)
    (n : Nat) (s : σ) :
    log ((fun t => (c.Close t).2)^[n] s) = log s ++ List.replicate n ConnCall.Close := by
  induction n generalizing s with
  | zero => simp
  | succ k ih =>
    rw [Function.iterate_succ, Function.comp_apply, ih, hr.1 s, List.append_assoc]
    rfl

/-! ## CloseWrite -/

/-- C1: when the connection of a HijackedResponse does not implement CloseWriter
(the type assertion fails, which includes the nil connection), CloseWrite
returns nil and makes no call on the connection: the connection state is
unchanged, so whatever record of calls is read out of it has gained neither a
half-close nor a full close entry, and the wrapper is unchanged too. -/
theorem closeWrite_without_capability (h : HijackedResponse σ ε ρ) (s : σ)
    (hno : assertCloseWriter h.Conn = none) :
    (h.CloseWrite s).ret = none ∧
    (h.CloseWrite s).conn = s ∧
    (h.CloseWrite s).self = h ∧
    ∀ log : σ → List ConnCall,
      log (h.CloseWrite s).conn = log s ∧
      (log (h.CloseWrite s).conn).count ConnCall.CloseWrite = (log s).count ConnCall.CloseWrite ∧
      (log (h.CloseWrite s).conn).count ConnCall.Close = (log s).count ConnCall.Close := by
  rw [closeWrite_of_none h s hno]
  exact ⟨rfl, rfl, rfl, fun _ => ⟨rfl, rfl, rfl⟩⟩

theorem closeWrite_without_capability_witness :
    assertCloseWriter recPipeResponse.Conn = none ∧
    (recPipeResponse.CloseWrite (SockState.opened, [])).ret = none ∧
    (recPipeResponse.CloseWrite (SockState.opened, [])).conn = (SockState.opened, []) ∧
    (recPipeResponse.CloseWrite (SockState.opened, [])).conn.2 = [] :=
  have hno : assertCloseWriter recPipeResponse.Conn = none := rfl
  have t := closeWrite_without_capability recPipeResponse (SockState.opened, []) hno
  ⟨hno, t.1, t.2.1, (t.2.2.2 Prod.snd).1⟩

/-- C2: when the connection of a HijackedResponse implements CloseWriter, the
value CloseWrite returns is exactly the value the connection's own CloseWrite
returns: nil when it reports success, and the same error e, neither wrapped nor
replaced, when it reports the failure e. -/
theorem closeWrite_forwards_result (h : HijackedResponse σ ε ρ) (c : net.Conn σ ε)
    (cw : CloseWriter σ ε) (s : σ)
    (hc : h.Conn = some c) (hcw : c.asCloseWriter = some cw) :
    (h.CloseWrite s).ret = (cw.CloseWrite s).1 ∧
    ((cw.CloseWrite s).1 = none → (h.CloseWrite s).ret = none) ∧
    (∀ e, (cw.CloseWrite s).1 = some e → (h.CloseWrite s).ret = some e) := by
  have ha : assertCloseWriter h.Conn = some cw := by rw [hc]; exact hcw
  rw [closeWrite_of_some h cw s ha]
  exact ⟨rfl, fun hn => hn, fun _ he => he⟩

theorem closeWrite_forwards_result_witness :
    tcpResponse.Conn = some tcpConn ∧
    tcpConn.asCloseWriter = some ⟨sockCloseWrite⟩ ∧
    (sockCloseWrite SockState.closed).1 = some "use of closed network connection" ∧
    (tcpResponse.CloseWrite SockState.closed).ret = some "use of closed network connection" ∧
    (sockCloseWrite SockState.opened).1 = none ∧
    (tcpResponse.CloseWrite SockState.opened).ret = none :=
  ⟨rfl, rfl, rfl,
    (closeWrite_forwards_result tcpResponse tcpConn ⟨sockCloseWrite⟩ SockState.closed rfl rfl).2.2
      "use of closed network connection" rfl,
    rfl,
    (closeWrite_forwards_result tcpResponse tcpConn ⟨sockCloseWrite⟩ SockState.opened rfl rfl).2.1
      rfl⟩

/-- C3: when the connection of a HijackedResponse implements CloseWriter and
records the calls made on it, one CloseWrite appends exactly one half-close
entry to the record and nothing else: the number of half-close entries grows by
one and the number of full-close entries stays the same, whatever the
half-close reports (so also when it fails: there is no second attempt). -/
theorem closeWrite_records_one_half_close (h : HijackedResponse σ ε ρ) (c : net.Conn σ ε)
    (cw : CloseWriter σ ε) (log : σ → List ConnCall) (s : σ)
    (hc : h.Conn = some c) (hcw : c.asCloseWriter = some cw) (hr : Records c log) :
    log (h.CloseWrite s).conn = log s ++ [ConnCall.CloseWrite] ∧
    (log (h.CloseWrite s).conn).count ConnCall.CloseWrite
      = (log s).count ConnCall.CloseWrite + 1 ∧
    (log (h.CloseWrite s).conn).count ConnCall.Close = (log s).count ConnCall.Close := by
  have ha : assertCloseWriter h.Conn = some cw := by rw [hc]; exact hcw
  rw [closeWrite_of_some h cw s ha]
  have hl := hr.2 cw hcw s
  refine ⟨hl, ?_, ?_⟩
  · show (log (cw.CloseWrite s).2).count ConnCall.CloseWrite = _
    rw [hl]; simp
  · show (log (cw.CloseWrite s).2).count ConnCall.Close = _
    rw [hl]; simp

theorem closeWrite_records_one_half_close_witness :
    recTcpResponse.Conn = some (recording tcpConn) ∧
    (recording tcpConn).asCloseWriter = some recTcpCloseWriter ∧
    Records (recording tcpConn) Prod.snd ∧
    (recTcpResponse.CloseWrite (SockState.closed, [])).ret
      = some "use of closed network connection" ∧
    (recTcpResponse.CloseWrite (SockState.closed, [])).conn.2 = [] ++ [ConnCall.CloseWrite] ∧
    (recTcpResponse.CloseWrite (SockState.opened, [])).conn.2 = [] ++ [ConnCall.CloseWrite] :=
  ⟨rfl, rfl, recording_records tcpConn, rfl,
    (closeWrite_records_one_half_close recTcpResponse (recording tcpConn) recTcpCloseWriter
      Prod.snd (SockState.closed, []) rfl rfl (recording_records tcpConn)).1,
    (closeWrite_records_one_half_close recTcpResponse (recording tcpConn) recTcpCloseWriter
      Prod.snd (SockState.opened, []) rfl rfl (recording_records tcpConn)).1⟩

/-! ## ServerOK -/

/-- C4: ServerOK returns true if and only if the Server field is present
(non-nil); when Server is left unset it returns false whatever Client is. -/
theorem serverOK_iff_server_present {Version : Type} (v : VersionResponse Version) :
    (v.ServerOK = true ↔ v.Server ≠ none) ∧
    (∀ client : Option Version, (VersionResponse.mk client none).ServerOK = false) := by
  refine ⟨?_, fun _ => rfl⟩
  cases v with
  | mk client server =>
    cases server with
    | none => simp [VersionResponse.ServerOK]
    | some x => simp [VersionResponse.ServerOK]

/-! ## Close -/

/-- C5: over a connection that records the calls made on it, one Close of the
HijackedResponse completes and appends exactly one full-close entry to the
record and nothing else: the number of full-close entries grows by one and the
number of half-close entries stays the same. -/
theorem close_records_one_close (h : HijackedResponse σ ε ρ) (c : net.Conn σ ε)
    (log : σ → List ConnCall) (s : σ)
    (hc : h.Conn = some c) (hr : Records c log) :
    ∃ p, h.Close s = .ok p ∧
      log p.conn = log s ++ [ConnCall.Close] ∧
      (log p.conn).count ConnCall.Close = (log s).count ConnCall.Close + 1 ∧
      (log p.conn).count ConnCall.CloseWrite = (log s).count ConnCall.CloseWrite := by
  refine ⟨⟨(), h, (c.Close s).2⟩, close_of_conn h c s hc, hr.1 s, ?_, ?_⟩
  · show (log (c.Close s).2).count ConnCall.Close = _
    rw [hr.1 s]; simp
  · show (log (c.Close s).2).count ConnCall.CloseWrite = _
    rw [hr.1 s]; simp

theorem close_records_one_close_witness :
    recTcpResponse.Conn = some (recording tcpConn) ∧
    Records (recording tcpConn) Prod.snd ∧
    ∃ p, recTcpResponse.Close (SockState.opened, []) = .ok p ∧
      p.conn.2 = [] ++ [ConnCall.Close] ∧
      p.conn.2.count ConnCall.Close = 0 + 1 ∧
      p.conn.2.count ConnCall.CloseWrite = 0 :=
  ⟨rfl, recording_records tcpConn,
    close_records_one_close recTcpResponse (recording tcpConn) Prod.snd (SockState.opened, [])
      rfl (recording_records tcpConn)⟩

/-- C6, as the spec states it, fails: no reading of what Close of a
HijackedResponse leaves to its caller yields the error the connection's Close
reported.  On the sample connection, closing a socket that is already closed
and closing one reset by the peer report two different errors, and Close of
the wrapper leaves exactly the same outcome in both cases. -/
theorem close_error_not_observable :
    (tcpConn.Close SockState.closed).1 = some "use of closed network connection" ∧
    (tcpConn.Close SockState.reset).1 = some "connection reset by peer" ∧
    tcpResponse.Close SockState.closed = tcpResponse.Close SockState.reset ∧
    ¬ ∃ observe : Except GoPanic (Post Unit SockState String Unit) → Option String,
        ∀ (s : SockState) (e : String), (tcpConn.Close s).1 = some e →
          observe (tcpResponse.Close s) = some e := by
  refine ⟨rfl, rfl, rfl, ?_⟩
  rintro ⟨observe, hobs⟩
  have h1 := hobs SockState.closed "use of closed network connection" rfl
  have h2 := hobs SockState.reset "connection reset by peer" rfl
  have h3 : tcpResponse.Close SockState.closed = tcpResponse.Close SockState.reset := rfl
  rw [h3, h2] at h1
  exact absurd (Option.some.inj h1) (by decide)

/-- C6, amended: when the connection's Close reports an error e, Close of the
HijackedResponse still returns normally, with no value: the underlying Close
has been invoked (the connection is left in the state that call produced), the
wrapper is unchanged, and e is discarded. -/
theorem close_discards_error (h : HijackedResponse σ ε ρ) (c : net.Conn σ ε) (s : σ) (e : ε)
    (hc : h.Conn = some c) (he : (c.Close s).1 = some e) :
    h.Close s = .ok ⟨(), h, (c.Close s).2⟩ ∧
    ∀ c2 : net.Conn σ ε, (c2.Close s).1 = none → (c2.Close s).2 = (c.Close s).2 →
      ∀ p2, HijackedResponse.Close ⟨some c2, h.Reader⟩ s = .ok p2 →
        p2.ret = () ∧ p2.conn = (c.Close s).2 := by
  have _ := he
  refine ⟨close_of_conn h c s hc, ?_⟩
  intro c2 _ hst p2 hp2
  rw [close_of_conn ⟨some c2, h.Reader⟩ c2 s rfl] at hp2
  cases hp2
  exact ⟨rfl, hst⟩

theorem close_discards_error_witness :
    tcpResponse.Conn = some tcpConn ∧
    (tcpConn.Close SockState.reset).1 = some "connection reset by peer" ∧
    tcpResponse.Close SockState.reset = .ok ⟨(), tcpResponse, SockState.closed⟩ :=
  ⟨rfl, rfl,
    (close_discards_error tcpResponse tcpConn SockState.reset "connection reset by peer"
      rfl rfl).1⟩

/-- C7: Close of a HijackedResponse that has a connection never fails
observably.  Whatever the underlying Close returns, nil or an error, Close
returns normally and its whole outcome is fixed: no value is handed back, the
receiver is exactly as it was, and the connection is in the state the underlying
Close left it in.  It never panics.  So the outcome is the same whether the
underlying close succeeded or failed: two starting states from which the
underlying Close reaches the same state give equal outcomes, and any other
connection reaching that state gives the same outcome on its own wrapper,
whatever either of them reports. -/
theorem close_never_fails (h : HijackedResponse σ ε ρ) (c : net.Conn σ ε) (s : σ)
    (hc : h.Conn = some c) :
    (∀ (err : Option ε) (s1 : σ), c.Close s = (err, s1) → h.Close s = .ok ⟨(), h, s1⟩) ∧
    (∀ p, h.Close s ≠ .error p) ∧
    (∀ s2 : σ, (c.Close s2).2 = (c.Close s).2 → h.Close s2 = h.Close s) ∧
    (∀ (c2 : net.Conn σ ε) (r : Option ρ), (c2.Close s).2 = (c.Close s).2 →
      HijackedResponse.Close ⟨some c2, r⟩ s = .ok ⟨(), ⟨some c2, r⟩, (c.Close s).2⟩) := by
  refine ⟨?_, ?_, ?_, ?_⟩
  · intro err s1 hr
    rw [close_of_conn h c s hc, hr]
  · intro p hp
    rw [close_of_conn h c s hc] at hp
    cases hp
  · intro s2 hst
    rw [close_of_conn h c s hc, close_of_conn h c s2 hc, hst]
  · intro c2 r hst
    rw [close_of_conn ⟨some c2, r⟩ c2 s rfl, hst]

theorem close_never_fails_witness :
    tcpResponse.Conn = some tcpConn ∧
    tcpConn.Close SockState.closed
      = (some "use of closed network connection", SockState.closed) ∧
    tcpConn.Close SockState.opened = (none, SockState.closed) ∧
    tcpResponse.Close SockState.closed = .ok ⟨(), tcpResponse, SockState.closed⟩ ∧
    tcpResponse.Close SockState.opened = tcpResponse.Close SockState.closed :=
  ⟨rfl, rfl, rfl,
    (close_never_fails tcpResponse tcpConn SockState.closed rfl).1
      (some "use of closed network connection") SockState.closed rfl,
    (close_never_fails tcpResponse tcpConn SockState.closed rfl).2.2.1 SockState.opened rfl⟩

/-- C9: Close is unguarded.  Calling it n times on the same HijackedResponse
invokes the connection's Close n times: the connection state is the n-fold
iterate of the underlying Close, and a connection that records its calls has n
more full-close entries (two after a second Close, not one).  Each Close
leaves the Conn and Reader fields of the wrapper as they were. -/
theorem close_repeated (h : HijackedResponse σ ε ρ) (c : net.Conn σ ε)
    (log : σ → List ConnCall) (s : σ) (n : Nat)
    (hc : h.Conn = some c) (hr : Records c log) :
    (∃ p, closeTimes n h s = .ok p ∧
      p.self = h ∧
      p.conn = (fun t => (c.Close t).2)^[n] s ∧
      log p.conn = log s ++ List.replicate n ConnCall.Close ∧
      (log p.conn).count ConnCall.Close = (log s).count ConnCall.Close + n) ∧
    (∃ q, h.Close s = .ok q ∧ q.self.Conn = h.Conn ∧ q.self.Reader = h.Reader) := by
  refine ⟨⟨⟨(), h, (fun t => (c.Close t).2)^[n] s⟩, closeTimes_of_conn h c hc n s, rfl, rfl,
    records_iterate c log hr n s, ?_⟩, ⟨⟨(), h, (c.Close s).2⟩, close_of_conn h c s hc, rfl, rfl⟩⟩
  show (log ((fun t => (c.Close t).2)^[n] s)).count ConnCall.Close = _
  rw [records_iterate c log hr n s]
  simp

theorem close_repeated_witness :
    recTcpResponse.Conn = some (recording tcpConn) ∧
    Records (recording tcpConn) Prod.snd ∧
    ∃ p, closeTimes 2 recTcpResponse (SockState.opened, []) = .ok p ∧
      p.self = recTcpResponse ∧
      p.conn.2 = [] ++ List.replicate 2 ConnCall.Close :=
  have t := (close_repeated recTcpResponse (recording tcpConn) Prod.snd (SockState.opened, []) 2
    rfl (recording_records tcpConn)).1
  ⟨rfl, recording_records tcpConn,
    t.elim fun p hp => ⟨p, hp.1, hp.2.1, hp.2.2.2.1⟩⟩

/-! ## ImagePushOptions and ImagePullOptions -/

/-- C8: ImagePushOptions and ImagePullOptions share one representation.
Converting a pull value to a push value keeps ImageID, Tag and RegistryAuth;
converting there and back is the identity in both directions; and a push value
and a pull value built from the same three field values convert into each
other. -/
theorem push_pull_same_shape (p : ImagePullOptions) (q : ImagePushOptions)
    (imageID tag registryAuth : String) :
    (p.toPush.ImageID = p.ImageID ∧ p.toPush.Tag = p.Tag ∧
      p.toPush.RegistryAuth = p.RegistryAuth) ∧
    p.toPush.toPull = p ∧
    q.toPull.toPush = q ∧
    (ImagePullOptions.mk imageID tag registryAuth).toPush
      = ImagePushOptions.mk imageID tag registryAuth ∧
    (ImagePushOptions.mk imageID tag registryAuth).toPull
      = ImagePullOptions.mk imageID tag registryAuth :=
  ⟨⟨rfl, rfl, rfl⟩, rfl, rfl, rfl, rfl⟩

end Types
